import Mathlib

/-!
A shallow embedding of bustub's `BufferPoolManager`
(`src/buffer/buffer_pool_manager.cpp`) and proofs about it.

The manager's state (frame array, page table, free list, replacer, disk
manager) is one Lean structure; every public operation is a pure function
from state to result × state, translated line by line from the source.
The `DiskManager` and the replacement policy are collaborators whose code
is not part of this repository's source tree; they are modelled from the
specification's interface contracts (see their doc comments).
-/

namespace BufferPool

/-- Page identifiers: `page_id_t` is a signed machine integer in the source;
we use `Int`, with `-1` as the invalid sentinel. -/
abbrev PageId := Int

/-- The sentinel `INVALID_PAGE_ID = -1`. -/
def INVALID_PAGE_ID : PageId := -1

/-- Page contents, abstracted as a list of bytes; the zeroed buffer produced
by `ResetMemory` is represented by `[]`. -/
abbrev Bytes := List Nat

/-- One buffer frame: the `Page` object of the source, holding the data
buffer, the id of the resident page, the pin count (`int` in the source,
hence `Int` here) and the dirty flag. -/
structure Page where
  data : Bytes
  page_id : PageId
  pin_count : Int
  is_dirty : Bool
deriving DecidableEq

/-- A freshly constructed or reset `Page`: zeroed data, invalid page id,
pin count 0, clean.  This is both the constructor state of `Page` and the
state `DeletePageImpl` resets a frame to. -/
def emptyPage : Page :=
  { data := [], page_id := INVALID_PAGE_ID, pin_count := 0, is_dirty := false }

/-- Events recorded against the storage collaborator, so that claims about
which disk calls an operation performs are statable. -/
inductive DiskEvent where
  | read (p : PageId)
  | write (p : PageId) (d : Bytes)
  | alloc (p : PageId)
  | dealloc (p : PageId)
deriving DecidableEq

/-- Modelled from the spec: the storage collaborator (`DiskManager`) of §6.
`store` is the persisted content keyed by page id (latest write first),
`next_page` the counter backing `AllocatePage` ("returns a fresh,
previously-unused identifier"), and `log` a trace of the calls made. -/
structure DiskManager where
  store : List (PageId × Bytes)
  next_page : PageId
  log : List DiskEvent
deriving DecidableEq

/-- Lookup of a page's persisted bytes; the most recent write wins. -/
def storeLookup : List (PageId × Bytes) → PageId → Option Bytes
  | [], _ => none
  | (q, d) :: t, p => if q = p then some d else storeLookup t p

/-- Modelled from the spec: `ReadPage(page_id, buffer)` fills the buffer with
the page's persisted bytes (zeroed if nothing was ever persisted). -/
def DiskManager.ReadPage (p : PageId) (dm : DiskManager) : Bytes × DiskManager :=
  ((storeLookup dm.store p).getD [], { dm with log := dm.log ++ [DiskEvent.read p] })

/-- Modelled from the spec: `WritePage(page_id, buffer)` persists the buffer
synchronously. -/
def DiskManager.WritePage (p : PageId) (d : Bytes) (dm : DiskManager) : DiskManager :=
  { dm with store := (p, d) :: dm.store, log := dm.log ++ [DiskEvent.write p d] }

/-- Modelled from the spec: `AllocatePage()` returns a fresh, previously
unused page identifier (a monotone counter). -/
def DiskManager.AllocatePage (dm : DiskManager) : PageId × DiskManager :=
  (dm.next_page,
   { dm with next_page := dm.next_page + 1, log := dm.log ++ [DiskEvent.alloc dm.next_page] })

/-- Modelled from the spec: `DeallocatePage(page_id)` marks an identifier
free for reuse; it "may be a no-op placeholder", so only the call is logged. -/
def DiskManager.DeallocatePage (p : PageId) (dm : DiskManager) : DiskManager :=
  { dm with log := dm.log ++ [DiskEvent.dealloc p] }

/-- Modelled from the spec: the pluggable replacement policy of §4.2, at the
contract level the manager consumes — it "tracks which frames are currently
unpinned and evictable, and selects a victim among them".  `evictable` is
that set (kept in mark order); `pinLog`/`unpinLog` record the arguments of
the mark-non-evictable / mark-evictable calls the manager issues, so claims
about when those calls happen are statable.  The element type is `Int`
because `frame_id_t` is a signed integer in the source and the manager may
pass any integer to the calls. -/
structure Replacer where
  evictable : List Int
  pinLog : List Int
  unpinLog : List Int
deriving DecidableEq

/-- Modelled from the spec: mark-non-evictable (`Pin`): the argument is
removed from the evictable set (a no-op if it is not there). -/
def Replacer.Pin (x : Int) (r : Replacer) : Replacer :=
  { r with evictable := r.evictable.filter (fun y => y != x),
           pinLog := r.pinLog ++ [x] }

/-- Modelled from the spec: mark-evictable (`Unpin`): the argument joins the
evictable set if not already present. -/
def Replacer.Unpin (x : Int) (r : Replacer) : Replacer :=
  { r with evictable := if x ∈ r.evictable then r.evictable else r.evictable ++ [x],
           unpinLog := r.unpinLog ++ [x] }

/-- Modelled from the spec: `SelectVictim()` "returns some currently-evictable
frame, or none if no frame is evictable"; the selected frame stops being
evictable (it is about to be reused pinned).  This deterministic choice
(the least recently marked element) is one conforming instance of the
contract, which any correct policy is interchangeable with. -/
def Replacer.Victim (r : Replacer) : Option Int × Replacer :=
  match r.evictable with
  | [] => (none, r)
  | v :: rest => (some v, { r with evictable := rest })

/-- The whole `BufferPoolManager` state. -/
structure BPM where
  pool_size : Nat
  pages : List Page
  page_table : List (PageId × Nat)
  free_list : List Nat
  replacer : Replacer
  disk : DiskManager
deriving DecidableEq

/-- `pages_[f]` — reading a frame of the pool (out-of-range reads give the
constructor-state page, which never happens on the source's index range). -/
def getPage (s : BPM) (f : Nat) : Page := s.pages.getD f emptyPage

/-- `page_table_.find(p)`: the frame id the page table maps `p` to, if any. -/
def ptFind : List (PageId × Nat) → PageId → Option Nat
  | [], _ => none
  | (q, f) :: t, p => if q = p then some f else ptFind t p

/-- `page_table_.insert({p, f})`: `std::unordered_map::insert` does nothing
when the key is already present. -/
def ptInsert (t : List (PageId × Nat)) (p : PageId) (f : Nat) : List (PageId × Nat) :=
  match ptFind t p with
  | some _ => t
  | none => t ++ [(p, f)]

/-- `page_table_.erase(p)`: removes the entry for key `p`. -/
def ptErase (t : List (PageId × Nat)) (p : PageId) : List (PageId × Nat) :=
  t.filter (fun e => e.1 != p)

/-- `BufferPoolManager::FlushPageImplWithoutLock` (lines 115-133): look the
page up in the page table; if absent return false; if the frame is dirty,
`DiskManager::WritePage` its bytes and clear the dirty flag; return true. -/
def FlushPageImplWithoutLock (p : PageId) (s : BPM) : Bool × BPM :=
  match ptFind s.page_table p with
  | none => (false, s)
  | some f =>
    let pg := getPage s f
    if pg.is_dirty then
      (true, { s with
        disk := DiskManager.WritePage p pg.data s.disk,
        pages := s.pages.set f { pg with is_dirty := false } })
    else (true, s)

/-- `BufferPoolManager::FlushPageImpl` (lines 135-142): the locked wrapper;
the latch is irrelevant in the sequential embedding. -/
def FlushPageImpl (p : PageId) (s : BPM) : Bool × BPM :=
  FlushPageImplWithoutLock p s

/-- The tail of `FetchPageImpl`'s miss path (lines 72-88), run once a frame
`f` has been obtained from the free list or the replacer: if the frame is
dirty, flush its old page and erase that page's table entry; then reset the
memory, install the new metadata (`is_dirty = false`, `pin_count = 1`),
read the page from disk into the frame, and insert the page-table entry. -/
def fetchMissTail (f : Nat) (p : PageId) (s : BPM) : BPM :=
  let pg := getPage s f
  let s1 :=
    if pg.is_dirty then
      let s' := (FlushPageImplWithoutLock pg.page_id s).2
      { s' with page_table := ptErase s'.page_table pg.page_id }
    else s
  let rd := DiskManager.ReadPage p s1.disk
  { s1 with
    pages := s1.pages.set f { data := rd.1, page_id := p, pin_count := 1, is_dirty := false },
    disk := rd.2,
    page_table := ptInsert s1.page_table p f }

/-- `BufferPoolManager::FetchPageImpl` (lines 39-89).  On a page-table hit
(lines 53-59) the pin count is incremented and `replacer_->Pin(page_id)` is
called — with the page id, exactly as in the source line 56.  On a miss, a
frame comes from the free list first, else from `replacer_->Victim`; failure
of both returns `nullptr` (here `none`).  The returned value is the index of
the frame handed back (`&pages_[frameId]`). -/
def FetchPageImpl (p : PageId) (s : BPM) : Option Nat × BPM :=
  match ptFind s.page_table p with
  | some f =>
    let pg := getPage s f
    (some f, { s with
      pages := s.pages.set f { pg with pin_count := pg.pin_count + 1 },
      replacer := Replacer.Pin p s.replacer })
  | none =>
    match s.free_list with
    | f :: rest => (some f, fetchMissTail f p { s with free_list := rest })
    | [] =>
      match Replacer.Victim s.replacer with
      | (none, r') => (none, { s with replacer := r' })
      | (some v, r') => (some v.toNat, fetchMissTail v.toNat p { s with replacer := r' })

/-- `BufferPoolManager::UnpinPageImpl` (lines 91-113): fail if the page is
not in the table or its pin count is already 0; otherwise decrement the pin
count, OR the dirty flag, and call `replacer_->Unpin(frameId)` exactly when
the new pin count is 0. -/
def UnpinPageImpl (p : PageId) (d : Bool) (s : BPM) : Bool × BPM :=
  match ptFind s.page_table p with
  | none => (false, s)
  | some f =>
    let pg := getPage s f
    if pg.pin_count = 0 then (false, s)
    else
      let pg' := { pg with pin_count := pg.pin_count - 1, is_dirty := pg.is_dirty || d }
      let s' := { s with pages := s.pages.set f pg' }
      if pg'.pin_count = 0 then
        (true, { s' with replacer := Replacer.Unpin (f : Int) s'.replacer })
      else (true, s')

/-- The tail of `NewPageImpl` (lines 175-183), run on the obtained frame:
`AllocatePage`, `ResetMemory`, set the page id and `pin_count = 1` — the
source does NOT touch `is_dirty_` here (line 179 is commented out), so the
flag keeps whatever value the frame had — and insert the table entry. -/
def newPageTail (f : Nat) (s : BPM) : Option (PageId × Nat) × BPM :=
  let al := DiskManager.AllocatePage s.disk
  let pg := getPage s f
  (some (al.1, f), { s with
    disk := al.2,
    pages := s.pages.set f { pg with data := [], page_id := al.1, pin_count := 1 },
    page_table := ptInsert s.page_table al.1 f })

/-- `BufferPoolManager::NewPageImpl` (lines 144-184): take a frame from the
free list if possible; otherwise take a replacer victim, flush it if dirty,
and erase its page-table entry (unconditionally, line 170); then run the
common tail.  With no free frame and no victim, return `nullptr` without
calling `AllocatePage`. -/
def NewPageImpl (s : BPM) : Option (PageId × Nat) × BPM :=
  match s.free_list with
  | f :: rest => newPageTail f { s with free_list := rest }
  | [] =>
    match Replacer.Victim s.replacer with
    | (none, r') => (none, { s with replacer := r' })
    | (some v, r') =>
      let f := v.toNat
      let s1 := { s with replacer := r' }
      let q := (getPage s1 f).page_id
      let s2 := if (getPage s1 f).is_dirty then (FlushPageImplWithoutLock q s1).2 else s1
      newPageTail f { s2 with page_table := ptErase s2.page_table q }

/-- `BufferPoolManager::DeletePageImpl` (lines 187-223): true if the page is
not resident; false if its pin count is positive; otherwise erase the table
entry, reset the frame, push the frame on the free list and call
`DiskManager::DeallocatePage`. -/
def DeletePageImpl (p : PageId) (s : BPM) : Bool × BPM :=
  match ptFind s.page_table p with
  | none => (true, s)
  | some f =>
    if (getPage s f).pin_count > 0 then (false, s)
    else
      (true, { s with
        page_table := ptErase s.page_table p,
        pages := s.pages.set f emptyPage,
        free_list := s.free_list ++ [f],
        disk := DiskManager.DeallocatePage p s.disk })

/-- One iteration of the `FlushAllPagesImpl` loop (lines 229-236): skip the
frame if its page id is invalid, else flush that page id. -/
def flushStep (s : BPM) (i : Nat) : BPM :=
  if (getPage s i).page_id = INVALID_PAGE_ID then s
  else (FlushPageImplWithoutLock (getPage s i).page_id s).2

/-- `BufferPoolManager::FlushAllPagesImpl` (lines 226-238): sweep every
frame index in order. -/
def FlushAllPagesImpl (s : BPM) : BPM :=
  (List.range s.pool_size).foldl flushStep s

/-- The public operations, plus `write`, which models a caller writing bytes
through the `Page` handle it holds for frame `f` (page data is accessed
directly through the returned pointer, not through the manager). -/
inductive Op where
  | fetch (p : PageId)
  | unpin (p : PageId) (d : Bool)
  | flush (p : PageId)
  | flushAll
  | newPage
  | deletePage (p : PageId)
  | write (f : Nat) (d : Bytes)

/-- Apply one operation, discarding its return value. -/
def applyOp (s : BPM) : Op → BPM
  | Op.fetch p => (FetchPageImpl p s).2
  | Op.unpin p d => (UnpinPageImpl p d s).2
  | Op.flush p => (FlushPageImpl p s).2
  | Op.flushAll => FlushAllPagesImpl s
  | Op.newPage => (NewPageImpl s).2
  | Op.deletePage p => (DeletePageImpl p s).2
  | Op.write f d => { s with pages := s.pages.set f { getPage s f with data := d } }

/-- The constructor (lines 20-31): `pool_size` fresh frames, every frame on
the free list in index order, empty page table, empty replacer, fresh disk. -/
def initBPM (n : Nat) : BPM :=
  { pool_size := n,
    pages := List.replicate n emptyPage,
    page_table := [],
    free_list := List.range n,
    replacer := { evictable := [], pinLog := [], unpinLog := [] },
    disk := { store := [], next_page := 0, log := [] } }

/-- Run a sequence of operations from a fresh manager of pool size `n`. -/
def run (n : Nat) (ops : List Op) : BPM := ops.foldl applyOp (initBPM n)

/-- One pool-filling operation: `some p` brings page `p` in via
`FetchPageImpl`, `none` allocates a fresh page via `NewPageImpl`. -/
def fillOp (s : BPM) : Option PageId → BPM
  | some p => (FetchPageImpl p s).2
  | none => (NewPageImpl s).2

/-- Fold a sequence of fills (fetches and fresh allocations) over a state. -/
def fillList (os : List (Option PageId)) (s : BPM) : BPM :=
  os.foldl fillOp s

/-- The fill sequence brings in pairwise-distinct pages: each fetched page id
differs from every page id brought in earlier — earlier fetched ids and
earlier allocated ids alike (`done` accumulates them; `c` is the storage
allocator's counter, which `none` steps consume and increment). -/
def FreshFill : List (Option PageId) → List PageId → PageId → Prop
  | [], _, _ => True
  | none :: os, done, c => FreshFill os (c :: done) (c + 1)
  | some p :: os, done, c => p ∉ done ∧ FreshFill os (p :: done) c

/-- Every frame's pin count in the list is non-negative. -/
def NonnegL (l : List Page) : Prop := ∀ x ∈ l, 0 ≤ x.pin_count

/-- The page id `p` is clean as observed through the page table: whatever
frame the table maps `p` to is not dirty. -/
def ObsClean (s : BPM) (p : PageId) : Prop :=
  ∀ g, ptFind s.page_table p = some g → (getPage s g).is_dirty = false

/-- Invariant of a fresh pool after `j` fill operations (fetches of fresh
pages or fresh allocations), with nothing ever unpinned: the free list is
exactly the untouched tail of the frame index range, nothing is evictable,
free frames are still in constructor state, and only already-filled ids
(`done`) are in the page table. -/
def MixInv (N j : Nat) (done : List PageId) (s : BPM) : Prop :=
  s.pool_size = N ∧
  s.free_list = List.range' j (N - j) ∧
  s.replacer.evictable = [] ∧
  (∀ f ∈ s.free_list, getPage s f = emptyPage) ∧
  (∀ q g, ptFind s.page_table q = some g → q ∈ done) ∧
  j ≤ N

/-! ### Helper lemmas about lists, the page table and the store -/

theorem getD_set_self {α : Type _} (l : List α) (i : Nat) (a d : α) (h : i < l.length) :
    (l.set i a).getD i d = a := by
  rw [List.getD_eq_getElem?_getD, List.getElem?_set_self (by simpa using h)]
  rfl

theorem getD_set_other {α : Type _} (l : List α) (i j : Nat) (a d : α) (h : i ≠ j) :
    (l.set i a).getD j d = l.getD j d := by
  rw [List.getD_eq_getElem?_getD, List.getElem?_set_ne h, ← List.getD_eq_getElem?_getD]

theorem getD_mem_or {α : Type _} (l : List α) (i : Nat) (d : α) :
    l.getD i d ∈ l ∨ l.getD i d = d := by
  rcases Nat.lt_or_ge i l.length with h | h
  · exact Or.inl (by rw [List.getD_eq_getElem l d h]; exact List.getElem_mem h)
  · exact Or.inr (List.getD_eq_default l d h)

theorem ptFind_append (t₁ t₂ : List (PageId × Nat)) (p : PageId) :
    ptFind (t₁ ++ t₂) p =
      match ptFind t₁ p with
      | some f => some f
      | none => ptFind t₂ p := by
  induction t₁ with
  | nil => rfl
  | cons e t ih =>
    by_cases h : e.1 = p
    · simp [ptFind, h]
    · simpa [ptFind, h] using ih

theorem ptFind_insert_self (t : List (PageId × Nat)) (p : PageId) (f : Nat)
    (h : ptFind t p = none) : ptFind (ptInsert t p f) p = some f := by
  simp [ptInsert, h, ptFind_append, ptFind]

theorem ptFind_insert_of_ne (t : List (PageId × Nat)) (p q : PageId) (f : Nat)
    (h : q ≠ p) : ptFind (ptInsert t p f) q = ptFind t q := by
  unfold ptInsert
  cases hf : ptFind t p with
  | some g => rfl
  | none =>
    rw [ptFind_append]
    cases hq : ptFind t q with
    | some g => rfl
    | none => rw [ptFind, if_neg (fun hh => h hh.symm)]; rfl

theorem ptFind_erase_self (t : List (PageId × Nat)) (p : PageId) :
    ptFind (ptErase t p) p = none := by
  induction t with
  | nil => rfl
  | cons e t ih =>
    by_cases h : e.1 = p
    · simpa [ptErase, h] using ih
    · simpa [ptErase, ptFind, h, bne_iff_ne] using ih

theorem ptFind_erase_of_ne (t : List (PageId × Nat)) (p q : PageId) (h : q ≠ p) :
    ptFind (ptErase t p) q = ptFind t q := by
  induction t with
  | nil => rfl
  | cons e t ih =>
    obtain ⟨a, b⟩ := e
    by_cases ha : a = p
    · rw [ptErase, List.filter_cons_of_neg (by simp [ha])]
      rw [ptErase] at ih
      rw [ih, ptFind, if_neg (fun hh : a = q => h (hh ▸ ha))]
    · rw [ptErase, List.filter_cons_of_pos (by simp [ha])]
      rw [ptFind, ptFind]
      by_cases haq : a = q
      · rw [if_pos haq, if_pos haq]
      · rw [if_neg haq, if_neg haq]
        rw [ptErase] at ih
        exact ih

theorem storeLookup_write_self (st : List (PageId × Bytes)) (p : PageId) (d : Bytes) :
    storeLookup ((p, d) :: st) p = some d := by
  simp [storeLookup]

theorem storeLookup_write_other (st : List (PageId × Bytes)) (p q : PageId) (d : Bytes)
    (h : q ≠ p) : storeLookup ((p, d) :: st) q = storeLookup st q := by
  rw [storeLookup, if_neg (fun hh => h hh.symm)]

/-! ### Pin counts never go negative -/

theorem nonnegL_getD (l : List Page) (f : Nat) (h : NonnegL l) :
    0 ≤ (l.getD f emptyPage).pin_count := by
  rcases getD_mem_or l f emptyPage with hm | he
  · exact h _ hm
  · rw [he]
    decide

theorem nonneg_getPage (s : BPM) (f : Nat) (h : NonnegL s.pages) :
    0 ≤ (getPage s f).pin_count :=
  nonnegL_getD s.pages f h

theorem nonnegL_set (l : List Page) (f : Nat) (pg : Page)
    (h : NonnegL l) (hpg : 0 ≤ pg.pin_count) : NonnegL (l.set f pg) := by
  intro x hx
  rcases List.mem_or_eq_of_mem_set hx with hm | rfl
  · exact h _ hm
  · exact hpg

theorem nonneg_flushWL (p : PageId) (s : BPM) (h : NonnegL s.pages) :
    NonnegL (FlushPageImplWithoutLock p s).2.pages := by
  rw [FlushPageImplWithoutLock]
  cases hf : ptFind s.page_table p with
  | none => exact h
  | some f =>
    by_cases hd : (getPage s f).is_dirty
    · simp only [hd, if_true]
      exact nonnegL_set _ _ _ h (nonnegL_getD _ _ h)
    · simp only [hd, if_false]
      exact h

theorem nonneg_fetchMissTail (f : Nat) (p : PageId) (s : BPM) (h : NonnegL s.pages) :
    NonnegL (fetchMissTail f p s).pages := by
  rw [fetchMissTail]
  by_cases hd : (getPage s f).is_dirty
  · simp only [hd, if_true]
    exact nonnegL_set _ _ _ (nonneg_flushWL _ _ h) (by norm_num)
  · simp only [hd, if_false]
    exact nonnegL_set _ _ _ h (by norm_num)

theorem nonneg_fetch (p : PageId) (s : BPM) (h : NonnegL s.pages) :
    NonnegL (FetchPageImpl p s).2.pages := by
  rw [FetchPageImpl]
  cases hf : ptFind s.page_table p with
  | some f =>
    have h0 := nonneg_getPage s f h
    exact nonnegL_set _ _ _ h (by show 0 ≤ (getPage s f).pin_count + 1; omega)
  | none =>
    cases hfree : s.free_list with
    | cons g rest => exact nonneg_fetchMissTail _ _ _ h
    | nil =>
      cases hv : Replacer.Victim s.replacer with
      | mk o r' =>
        cases o with
        | none => exact h
        | some v => exact nonneg_fetchMissTail _ _ _ h

theorem nonneg_unpin (p : PageId) (d : Bool) (s : BPM) (h : NonnegL s.pages) :
    NonnegL (UnpinPageImpl p d s).2.pages := by
  rw [UnpinPageImpl]
  cases hf : ptFind s.page_table p with
  | none => exact h
  | some f =>
    by_cases hz : (getPage s f).pin_count = 0
    · simp only [hz, if_true]
      exact h
    · simp only [hz, if_false]
      have h0 := nonneg_getPage s f h
      split
      · exact nonnegL_set _ _ _ h (by show 0 ≤ (getPage s f).pin_count - 1; omega)
      · exact nonnegL_set _ _ _ h (by show 0 ≤ (getPage s f).pin_count - 1; omega)

theorem nonneg_newPageTail (f : Nat) (s : BPM) (h : NonnegL s.pages) :
    NonnegL (newPageTail f s).2.pages := by
  rw [newPageTail]
  exact nonnegL_set _ _ _ h (by norm_num)

theorem nonneg_newPage (s : BPM) (h : NonnegL s.pages) :
    NonnegL (NewPageImpl s).2.pages := by
  rw [NewPageImpl]
  split
  · exact nonneg_newPageTail _ _ h
  · split
    · exact h
    · dsimp only
      split
      · exact nonneg_newPageTail _ _ (nonneg_flushWL _ _ h)
      · exact nonneg_newPageTail _ _ h

theorem nonneg_delete (p : PageId) (s : BPM) (h : NonnegL s.pages) :
    NonnegL (DeletePageImpl p s).2.pages := by
  rw [DeletePageImpl]
  cases hf : ptFind s.page_table p with
  | none => exact h
  | some f =>
    by_cases hp : (getPage s f).pin_count > 0
    · simp only [hp, if_true]
      exact h
    · simp only [hp, if_false]
      exact nonnegL_set _ _ _ h (by norm_num [emptyPage])

theorem nonneg_flushStep (s : BPM) (i : Nat) (h : NonnegL s.pages) :
    NonnegL (flushStep s i).pages := by
  rw [flushStep]
  by_cases hi : (getPage s i).page_id = INVALID_PAGE_ID
  · simp only [hi, if_true]
    exact h
  · simp only [hi, if_false]
    exact nonneg_flushWL _ _ h

theorem nonneg_flushAll_aux (l : List Nat) (s : BPM) (h : NonnegL s.pages) :
    NonnegL (l.foldl flushStep s).pages := by
  induction l generalizing s with
  | nil => exact h
  | cons i t ih => exact ih _ (nonneg_flushStep s i h)

theorem nonneg_applyOp (s : BPM) (o : Op) (h : NonnegL s.pages) :
    NonnegL (applyOp s o).pages := by
  cases o with
  | fetch p => exact nonneg_fetch p s h
  | unpin p d => exact nonneg_unpin p d s h
  | flush p => exact nonneg_flushWL p s h
  | flushAll => exact nonneg_flushAll_aux _ s h
  | newPage => exact nonneg_newPage s h
  | deletePage p => exact nonneg_delete p s h
  | write f d => exact nonnegL_set _ _ _ h (nonnegL_getD _ _ h)

theorem nonneg_run_aux (ops : List Op) (s : BPM) (h : NonnegL s.pages) :
    NonnegL (ops.foldl applyOp s).pages := by
  induction ops generalizing s with
  | nil => exact h
  | cons o t ih => exact ih _ (nonneg_applyOp s o h)

theorem nonneg_init (n : Nat) : NonnegL (initBPM n).pages := by
  intro x hx
  rw [List.eq_of_mem_replicate hx]
  decide

/-! ### Flush characterization and idempotence of the full sweep -/

theorem lt_length_of_dirty (s : BPM) (f : Nat) (hd : (getPage s f).is_dirty = true) :
    f < s.pages.length := by
  by_contra hle
  rw [getPage, List.getD_eq_default _ _ (Nat.le_of_not_lt hle)] at hd
  exact absurd hd (by decide)

theorem flushWL_eq_none (p : PageId) (s : BPM) (hf : ptFind s.page_table p = none) :
    FlushPageImplWithoutLock p s = (false, s) := by
  rw [FlushPageImplWithoutLock, hf]

theorem flushWL_eq_clean (p : PageId) (s : BPM) (f : Nat)
    (hf : ptFind s.page_table p = some f) (hd : (getPage s f).is_dirty = false) :
    FlushPageImplWithoutLock p s = (true, s) := by
  rw [FlushPageImplWithoutLock, hf]
  simp [hd]

theorem flushWL_eq_dirty (p : PageId) (s : BPM) (f : Nat)
    (hf : ptFind s.page_table p = some f) (hd : (getPage s f).is_dirty = true) :
    FlushPageImplWithoutLock p s = (true, { s with
      disk := DiskManager.WritePage p (getPage s f).data s.disk,
      pages := s.pages.set f { getPage s f with is_dirty := false } }) := by
  rw [FlushPageImplWithoutLock, hf]
  simp [hd]

theorem flushWL_state (p : PageId) (s : BPM) :
    ((FlushPageImplWithoutLock p s).2).page_table = s.page_table ∧
    ((FlushPageImplWithoutLock p s).2).pool_size = s.pool_size ∧
    (∀ g, (getPage (FlushPageImplWithoutLock p s).2 g).page_id = (getPage s g).page_id) ∧
    (∀ g, (getPage (FlushPageImplWithoutLock p s).2 g).is_dirty = true →
      (getPage s g).is_dirty = true) ∧
    (∀ g, ptFind s.page_table p = some g →
      (getPage (FlushPageImplWithoutLock p s).2 g).is_dirty = false) := by
  cases hf : ptFind s.page_table p with
  | none =>
    rw [flushWL_eq_none p s hf]
    exact ⟨rfl, rfl, fun g => rfl, fun g hh => hh, fun g hg => nomatch hg⟩
  | some f =>
    cases hd : (getPage s f).is_dirty with
    | false =>
      rw [flushWL_eq_clean p s f hf hd]
      refine ⟨rfl, rfl, fun g => rfl, fun g hh => hh, fun g hg => ?_⟩
      cases hg
      exact hd
    | true =>
      have hlen : f < s.pages.length := lt_length_of_dirty s f hd
      rw [flushWL_eq_dirty p s f hf hd]
      have hself : (s.pages.set f { getPage s f with is_dirty := false }).getD f emptyPage =
          { getPage s f with is_dirty := false } := getD_set_self _ _ _ _ hlen
      refine ⟨rfl, rfl, fun g => ?_, fun g hh => ?_, fun g hg => ?_⟩
      · by_cases hgf : g = f
        · subst hgf
          show (_ : Page).page_id = _
          rw [getPage, hself]
        · exact congrArg Page.page_id (getD_set_other _ _ _ _ _ (fun hh => hgf hh.symm))
      · by_cases hgf : g = f
        · subst hgf
          exact hd
        · rw [getPage, getD_set_other _ _ _ _ _ (fun hh => hgf hh.symm)] at hh
          exact hh
      · cases hg
        rw [getPage, hself]

theorem flushStep_state (s : BPM) (i : Nat) :
    (flushStep s i).page_table = s.page_table ∧
    (flushStep s i).pool_size = s.pool_size ∧
    (∀ g, (getPage (flushStep s i) g).page_id = (getPage s g).page_id) ∧
    (∀ g, (getPage (flushStep s i) g).is_dirty = true → (getPage s g).is_dirty = true) := by
  rw [flushStep]
  by_cases hi : (getPage s i).page_id = INVALID_PAGE_ID
  · rw [if_pos hi]
    exact ⟨rfl, rfl, fun g => rfl, fun g hh => hh⟩
  · rw [if_neg hi]
    obtain ⟨h1, h2, h3, h4, _⟩ := flushWL_state (getPage s i).page_id s
    exact ⟨h1, h2, h3, h4⟩

theorem foldFlush_state (l : List Nat) (s : BPM) :
    (l.foldl flushStep s).page_table = s.page_table ∧
    (l.foldl flushStep s).pool_size = s.pool_size ∧
    (∀ g, (getPage (l.foldl flushStep s) g).page_id = (getPage s g).page_id) ∧
    (∀ g, (getPage (l.foldl flushStep s) g).is_dirty = true →
      (getPage s g).is_dirty = true) := by
  induction l generalizing s with
  | nil => exact ⟨rfl, rfl, fun g => rfl, fun g hh => hh⟩
  | cons j t ih =>
    obtain ⟨s1, s2, s3, s4⟩ := flushStep_state s j
    obtain ⟨i1, i2, i3, i4⟩ := ih (flushStep s j)
    exact ⟨i1.trans s1, i2.trans s2, fun g => (i3 g).trans (s3 g),
      fun g hh => s4 g (i4 g hh)⟩

theorem obsClean_flushWL (p : PageId) (s : BPM) :
    ObsClean (FlushPageImplWithoutLock p s).2 p := by
  intro g hg
  obtain ⟨h1, _, _, _, h5⟩ := flushWL_state p s
  rw [h1] at hg
  exact h5 g hg

theorem obsClean_foldFlush (l : List Nat) (s : BPM) (q : PageId) (h : ObsClean s q) :
    ObsClean (l.foldl flushStep s) q := by
  intro g hg
  obtain ⟨h1, _, _, h4⟩ := foldFlush_state l s
  rw [h1] at hg
  cases hb : (getPage (l.foldl flushStep s) g).is_dirty with
  | false => rfl
  | true => exact absurd (h g hg) (by rw [h4 g hb]; decide)

theorem foldFlush_cleans (l : List Nat) (s : BPM) (i : Nat) (hi : i ∈ l)
    (hpid : (getPage s i).page_id ≠ INVALID_PAGE_ID) :
    ObsClean (l.foldl flushStep s) ((getPage s i).page_id) := by
  induction l generalizing s with
  | nil => cases hi
  | cons j t ih =>
    rcases List.mem_cons.mp hi with rfl | hmem
    · have hstep : ObsClean (flushStep s i) ((getPage s i).page_id) := by
        rw [flushStep, if_neg hpid]
        exact obsClean_flushWL _ _
      exact obsClean_foldFlush t (flushStep s i) _ hstep
    · obtain ⟨_, _, h3, _⟩ := flushStep_state s j
      have hpid' : (getPage (flushStep s j) i).page_id ≠ INVALID_PAGE_ID := by
        rw [h3 i]
        exact hpid
      have := ih (flushStep s j) hmem hpid'
      rw [h3 i] at this
      exact this

theorem flushWL_noop_of_obsClean (p : PageId) (s : BPM) (h : ObsClean s p) :
    (FlushPageImplWithoutLock p s).2 = s := by
  cases hf : ptFind s.page_table p with
  | none => rw [flushWL_eq_none p s hf]
  | some f => rw [flushWL_eq_clean p s f hf (h f hf)]

theorem foldFlush_id (l : List Nat) (s : BPM)
    (h : ∀ i ∈ l, (getPage s i).page_id ≠ INVALID_PAGE_ID →
      ObsClean s ((getPage s i).page_id)) :
    l.foldl flushStep s = s := by
  induction l with
  | nil => rfl
  | cons j t ih =>
    have hstep : flushStep s j = s := by
      rw [flushStep]
      by_cases hj : (getPage s j).page_id = INVALID_PAGE_ID
      · rw [if_pos hj]
      · rw [if_neg hj]
        exact flushWL_noop_of_obsClean _ _ (h j (List.mem_cons_self j t) hj)
    show List.foldl flushStep (flushStep s j) t = s
    rw [hstep]
    exact ih (fun i hi => h i (List.mem_cons_of_mem j hi))

theorem flushAll_idem (s : BPM) :
    FlushAllPagesImpl (FlushAllPagesImpl s) = FlushAllPagesImpl s := by
  obtain ⟨_, hpool, hpid, _⟩ := foldFlush_state (List.range s.pool_size) s
  rw [FlushAllPagesImpl, FlushAllPagesImpl, hpool]
  refine foldFlush_id _ _ (fun i hi hne => ?_)
  rw [hpid i] at hne ⊢
  exact foldFlush_cleans (List.range s.pool_size) s i hi hne

/-! ### Dirty write-back on eviction -/

theorem flushWL_length (p : PageId) (s : BPM) :
    ((FlushPageImplWithoutLock p s).2).pages.length = s.pages.length := by
  cases hf : ptFind s.page_table p with
  | none => rw [flushWL_eq_none p s hf]
  | some f =>
    cases hd : (getPage s f).is_dirty with
    | false => rw [flushWL_eq_clean p s f hf hd]
    | true =>
      rw [flushWL_eq_dirty p s f hf hd]
      exact List.length_set s.pages f _

theorem flushWL_store_of_absent (p' p : PageId) (s : BPM)
    (hq : ptFind s.page_table p = none) :
    storeLookup ((FlushPageImplWithoutLock p' s).2).disk.store p =
      storeLookup s.disk.store p := by
  cases hf : ptFind s.page_table p' with
  | none => rw [flushWL_eq_none p' s hf]
  | some g =>
    have hne : p ≠ p' := by
      intro hh
      rw [hh, hf] at hq
      cases hq
    cases hd : (getPage s g).is_dirty with
    | false => rw [flushWL_eq_clean p' s g hf hd]
    | true =>
      rw [flushWL_eq_dirty p' s g hf hd]
      exact storeLookup_write_other _ _ _ _ hne

theorem fetchMissTail_dirty_store (f : Nat) (q p : PageId) (s : BPM)
    (hd : (getPage s f).is_dirty = true)
    (hp : (getPage s f).page_id = p)
    (hpf : ptFind s.page_table p = some f) :
    storeLookup (fetchMissTail f q s).disk.store p = some (getPage s f).data ∧
    (getPage (fetchMissTail f q s) f).page_id = q := by
  have hlen : f < s.pages.length := lt_length_of_dirty s f hd
  rw [fetchMissTail]
  simp only [hd, if_true, hp]
  rw [flushWL_eq_dirty p s f hpf hd]
  constructor
  · exact storeLookup_write_self _ _ _
  · have hl2 : f < (s.pages.set f { getPage s f with is_dirty := false }).length := by
      rw [List.length_set]
      exact hlen
    show ((_ : List Page).getD f emptyPage).page_id = q
    rw [getD_set_self _ _ _ _ hl2]

theorem fetchMissTail_reads (f : Nat) (p : PageId) (d : Bytes) (s : BPM)
    (hq : ptFind s.page_table p = none)
    (hst : storeLookup s.disk.store p = some d)
    (hlen : f < s.pages.length) :
    (getPage (fetchMissTail f p s) f).data = d := by
  rw [fetchMissTail]
  by_cases hd : (getPage s f).is_dirty = true
  · rw [if_pos hd]
    have hst' : storeLookup
        ((FlushPageImplWithoutLock (getPage s f).page_id s).2).disk.store p = some d := by
      rw [flushWL_store_of_absent _ _ _ hq]
      exact hst
    have hl2 : f < ((FlushPageImplWithoutLock (getPage s f).page_id s).2).pages.length := by
      rw [flushWL_length]
      exact hlen
    show ((((FlushPageImplWithoutLock (getPage s f).page_id s).2).pages.set f
        _).getD f emptyPage).data = d
    rw [getD_set_self _ _ _ _ hl2]
    show (storeLookup ((FlushPageImplWithoutLock (getPage s f).page_id s).2).disk.store
        p).getD [] = d
    rw [hst']
    rfl
  · rw [if_neg hd]
    show ((s.pages.set f _).getD f emptyPage).data = d
    rw [getD_set_self _ _ _ _ hlen]
    show (storeLookup s.disk.store p).getD [] = d
    rw [hst]
    rfl

theorem newPageTail_state (f : Nat) (s : BPM) :
    (newPageTail f s).1 = some (s.disk.next_page, f) ∧
    (newPageTail f s).2.disk.store = s.disk.store := by
  constructor <;> rfl

theorem fetch_evicts_dirty (s : BPM) (q p : PageId) (f : Nat) (tl : List Int)
    (hq : ptFind s.page_table q = none) (hfree : s.free_list = [])
    (hev : s.replacer.evictable = (f : Int) :: tl)
    (hd : (getPage s f).is_dirty = true) (hp : (getPage s f).page_id = p)
    (hpf : ptFind s.page_table p = some f) :
    storeLookup ((FetchPageImpl q s).2).disk.store p = some (getPage s f).data ∧
    (FetchPageImpl q s).1 = some f ∧
    (getPage (FetchPageImpl q s).2 f).page_id = q := by
  have hd1 : (getPage { s with free_list := [], replacer := { evictable := tl, pinLog := s.replacer.pinLog, unpinLog := s.replacer.unpinLog } } f).is_dirty = true := hd
  have hp1 : (getPage { s with free_list := [], replacer := { evictable := tl, pinLog := s.replacer.pinLog, unpinLog := s.replacer.unpinLog } } f).page_id = p := hp
  have hpf1 : ptFind ({ s with free_list := [], replacer := { evictable := tl, pinLog := s.replacer.pinLog, unpinLog := s.replacer.unpinLog } } : BPM).page_table p = some f := hpf
  have hvic : Replacer.Victim s.replacer = (some (f : Int), { evictable := tl, pinLog := s.replacer.pinLog, unpinLog := s.replacer.unpinLog }) := by
    rw [Replacer.Victim, hev]
  have hfe : FetchPageImpl q s = (some f, fetchMissTail f q { s with free_list := [], replacer := { evictable := tl, pinLog := s.replacer.pinLog, unpinLog := s.replacer.unpinLog } }) := by
    simp only [FetchPageImpl, hq, hfree, hvic, Int.toNat_natCast]
  obtain ⟨h1, h2⟩ := fetchMissTail_dirty_store f q p { s with free_list := [], replacer := { evictable := tl, pinLog := s.replacer.pinLog, unpinLog := s.replacer.unpinLog } } hd1 hp1 hpf1
  rw [hfe]
  exact ⟨h1, rfl, h2⟩

theorem newPage_evicts_dirty (s : BPM) (p : PageId) (f : Nat) (tl : List Int)
    (hfree : s.free_list = []) (hev : s.replacer.evictable = (f : Int) :: tl)
    (hd : (getPage s f).is_dirty = true) (hp : (getPage s f).page_id = p)
    (hpf : ptFind s.page_table p = some f) :
    storeLookup ((NewPageImpl s).2).disk.store p = some (getPage s f).data ∧
    (NewPageImpl s).1 = some (s.disk.next_page, f) := by
  have hd1 : (getPage { s with free_list := [], replacer := { evictable := tl, pinLog := s.replacer.pinLog, unpinLog := s.replacer.unpinLog } } f).is_dirty = true := hd
  have hp1 : (getPage { s with free_list := [], replacer := { evictable := tl, pinLog := s.replacer.pinLog, unpinLog := s.replacer.unpinLog } } f).page_id = p := hp
  have hpf1 : ptFind ({ s with free_list := [], replacer := { evictable := tl, pinLog := s.replacer.pinLog, unpinLog := s.replacer.unpinLog } } : BPM).page_table p = some f := hpf
  have hvic : Replacer.Victim s.replacer = (some (f : Int), { evictable := tl, pinLog := s.replacer.pinLog, unpinLog := s.replacer.unpinLog }) := by
    rw [Replacer.Victim, hev]
  have hnp : NewPageImpl s = newPageTail f { (FlushPageImplWithoutLock p { s with free_list := [], replacer := { evictable := tl, pinLog := s.replacer.pinLog, unpinLog := s.replacer.unpinLog } }).2 with page_table := ptErase (FlushPageImplWithoutLock p { s with free_list := [], replacer := { evictable := tl, pinLog := s.replacer.pinLog, unpinLog := s.replacer.unpinLog } }).2.page_table p } := by
    simp only [NewPageImpl, hfree, hvic, Int.toNat_natCast]
    rw [if_pos hd1, hp1]
  constructor
  · rw [hnp, flushWL_eq_dirty p _ f hpf1 hd1]
    exact storeLookup_write_self _ _ _
  · rw [hnp, flushWL_eq_dirty p _ f hpf1 hd1]
    exact (newPageTail_state f _).1

theorem fetch_miss_reads (s : BPM) (p : PageId) (f : Nat) (rest : List Nat) (d : Bytes)
    (hfree : s.free_list = f :: rest) (hq : ptFind s.page_table p = none)
    (hst : storeLookup s.disk.store p = some d) (hlen : f < s.pages.length) :
    (FetchPageImpl p s).1 = some f ∧ (getPage (FetchPageImpl p s).2 f).data = d := by
  have hfe : FetchPageImpl p s =
      (some f, fetchMissTail f p { s with free_list := rest }) := by
    simp only [FetchPageImpl, hq, hfree]
  rw [hfe]
  exact ⟨rfl, fetchMissTail_reads f p d { s with free_list := rest } hq hst hlen⟩

/-! ### Pool exhaustion -/

theorem fetchMissTail_fresh (f : Nat) (p : PageId) (s : BPM)
    (hempty : getPage s f = emptyPage)
    (hmiss : ptFind s.page_table p = none) :
    fetchMissTail f p s = { s with pages := s.pages.set f { data := (storeLookup s.disk.store p).getD [], page_id := p, pin_count := 1, is_dirty := false }, disk := { s.disk with log := s.disk.log ++ [DiskEvent.read p] }, page_table := s.page_table ++ [(p, f)] } := by
  rw [fetchMissTail, if_neg (by rw [hempty]; decide : ¬(getPage s f).is_dirty = true)]
  simp only [DiskManager.ReadPage, ptInsert, hmiss]

theorem ptInsert_keys (t : List (PageId × Nat)) (p : PageId) (f : Nat)
    (done : List PageId) (h : ∀ q g, ptFind t q = some g → q ∈ done) :
    ∀ q g, ptFind (ptInsert t p f) q = some g → q ∈ p :: done := by
  intro q g hq
  rw [ptInsert] at hq
  cases hcol : ptFind t p with
  | some g' =>
    rw [hcol] at hq
    exact List.mem_cons_of_mem _ (h q g hq)
  | none =>
    rw [hcol, ptFind_append] at hq
    cases hfq : ptFind t q with
    | some g' => exact List.mem_cons_of_mem _ (h q g' hfq)
    | none =>
      rw [hfq] at hq
      by_cases hpq : p = q
      · rw [hpq]
        exact List.mem_cons_self _ _
      · rw [ptFind, if_neg hpq] at hq
        cases hq

theorem newPageTail_fresh (f : Nat) (s : BPM) (hempty : getPage s f = emptyPage) :
    (newPageTail f s).2 = { s with pages := s.pages.set f { data := [], page_id := s.disk.next_page, pin_count := 1, is_dirty := false }, disk := { s.disk with next_page := s.disk.next_page + 1, log := s.disk.log ++ [DiskEvent.alloc s.disk.next_page] }, page_table := ptInsert s.page_table s.disk.next_page f } := by
  rw [newPageTail]
  simp only [DiskManager.AllocatePage, hempty]
  rfl

theorem mix_step_fetch (N j : Nat) (done : List PageId) (s : BPM) (p : PageId)
    (hinv : MixInv N j done s) (hj : j < N) (hp : p ∉ done) :
    MixInv N (j + 1) (p :: done) ((FetchPageImpl p s).2) ∧
    ((FetchPageImpl p s).2).disk.next_page = s.disk.next_page := by
  obtain ⟨h1, h2, h3, h4, h5, h6⟩ := hinv
  have hmiss : ptFind s.page_table p = none := by
    cases h : ptFind s.page_table p with
    | none => rfl
    | some g => exact absurd (h5 p g h) hp
  obtain ⟨m, hm⟩ : ∃ m, N - j = m + 1 := ⟨N - j - 1, by omega⟩
  have hfree' : s.free_list = j :: List.range' (j + 1) m := by
    rw [h2, hm, List.range'_succ]
  have hkempty : getPage s j = emptyPage :=
    h4 _ (by rw [hfree']; exact List.mem_cons_self _ _)
  have hfe : FetchPageImpl p s = (some j,
      fetchMissTail j p { s with free_list := List.range' (j + 1) m }) := by
    simp only [FetchPageImpl, hmiss, hfree']
  have htail := fetchMissTail_fresh j p
    { s with free_list := List.range' (j + 1) m } hkempty hmiss
  rw [hfe, htail]
  refine ⟨⟨h1, ?_, h3, ?_, ?_, ?_⟩, rfl⟩
  · show List.range' (j + 1) m = List.range' (j + 1) (N - (j + 1))
    rw [show N - (j + 1) = m from by omega]
  · intro g hg
    have hge : j + 1 ≤ g := (List.mem_range'_1.mp hg).1
    have hne : j ≠ g := by omega
    show (s.pages.set j _).getD g emptyPage = emptyPage
    rw [getD_set_other _ _ _ _ _ hne]
    exact h4 g (by rw [hfree']; exact List.mem_cons_of_mem _ hg)
  · intro q g hq
    rw [ptFind_append] at hq
    cases hfq : ptFind s.page_table q with
    | some g' => exact List.mem_cons_of_mem _ (h5 q g' hfq)
    | none =>
      rw [hfq] at hq
      by_cases hpq : p = q
      · rw [hpq]
        exact List.mem_cons_self _ _
      · rw [ptFind, if_neg hpq] at hq
        cases hq
  · omega

theorem mix_step_newPage (N j : Nat) (done : List PageId) (s : BPM)
    (hinv : MixInv N j done s) (hj : j < N) :
    MixInv N (j + 1) (s.disk.next_page :: done) ((NewPageImpl s).2) ∧
    ((NewPageImpl s).2).disk.next_page = s.disk.next_page + 1 := by
  obtain ⟨h1, h2, h3, h4, h5, h6⟩ := hinv
  obtain ⟨m, hm⟩ : ∃ m, N - j = m + 1 := ⟨N - j - 1, by omega⟩
  have hfree' : s.free_list = j :: List.range' (j + 1) m := by
    rw [h2, hm, List.range'_succ]
  have hkempty : getPage s j = emptyPage :=
    h4 _ (by rw [hfree']; exact List.mem_cons_self _ _)
  have hfe : NewPageImpl s = newPageTail j { s with free_list := List.range' (j + 1) m } := by
    simp only [NewPageImpl, hfree']
  have htail := newPageTail_fresh j { s with free_list := List.range' (j + 1) m } hkempty
  rw [hfe, htail]
  refine ⟨⟨h1, ?_, h3, ?_, ?_, ?_⟩, rfl⟩
  · show List.range' (j + 1) m = List.range' (j + 1) (N - (j + 1))
    rw [show N - (j + 1) = m from by omega]
  · intro g hg
    have hge : j + 1 ≤ g := (List.mem_range'_1.mp hg).1
    have hne : j ≠ g := by omega
    show (s.pages.set j _).getD g emptyPage = emptyPage
    rw [getD_set_other _ _ _ _ _ hne]
    exact h4 g (by rw [hfree']; exact List.mem_cons_of_mem _ hg)
  · exact ptInsert_keys s.page_table s.disk.next_page j done h5
  · omega

theorem fillList_inv (os : List (Option PageId)) (j : Nat) (done : List PageId)
    (s : BPM) (N : Nat) (hinv : MixInv N j done s)
    (hfresh : FreshFill os done s.disk.next_page)
    (hcount : j + os.length ≤ N) :
    ∃ d', MixInv N (j + os.length) d' (fillList os s) := by
  induction os generalizing j done s with
  | nil => exact ⟨done, hinv⟩
  | cons o os ih =>
    have hj : j < N := by
      simp only [List.length_cons] at hcount
      omega
    have hcount' : (j + 1) + os.length ≤ N := by
      simp only [List.length_cons] at hcount
      omega
    cases o with
    | some p =>
      obtain ⟨hp, hfresh1⟩ := hfresh
      obtain ⟨hinv1, hnext⟩ := mix_step_fetch N j done s p hinv hj hp
      have hfresh2 : FreshFill os (p :: done) ((FetchPageImpl p s).2).disk.next_page := by
        rw [hnext]
        exact hfresh1
      obtain ⟨d', hd'⟩ := ih (j + 1) (p :: done) (FetchPageImpl p s).2 hinv1 hfresh2 hcount'
      refine ⟨d', ?_⟩
      show MixInv N (j + (os.length + 1)) d' (fillList os (fillOp s (some p)))
      rw [show j + (os.length + 1) = (j + 1) + os.length from by omega]
      exact hd'
    | none =>
      have hfresh1 : FreshFill os (s.disk.next_page :: done) (s.disk.next_page + 1) := hfresh
      obtain ⟨hinv1, hnext⟩ := mix_step_newPage N j done s hinv hj
      have hfresh2 : FreshFill os (s.disk.next_page :: done)
          ((NewPageImpl s).2).disk.next_page := by
        rw [hnext]
        exact hfresh1
      obtain ⟨d', hd'⟩ := ih (j + 1) (s.disk.next_page :: done) (NewPageImpl s).2
        hinv1 hfresh2 hcount'
      refine ⟨d', ?_⟩
      show MixInv N (j + (os.length + 1)) d' (fillList os (fillOp s none))
      rw [show j + (os.length + 1) = (j + 1) + os.length from by omega]
      exact hd'

theorem fetch_exhausted (s : BPM) (q : PageId) (hfree : s.free_list = [])
    (hev : s.replacer.evictable = []) (hq : ptFind s.page_table q = none) :
    FetchPageImpl q s = (none, s) := by
  have hvic : Replacer.Victim s.replacer = (none, s.replacer) := by
    rw [Replacer.Victim, hev]
  simp only [FetchPageImpl, hq, hfree, hvic]
  rw [← hfree]

theorem newPage_exhausted (s : BPM) (hfree : s.free_list = [])
    (hev : s.replacer.evictable = []) : NewPageImpl s = (none, s) := by
  have hvic : Replacer.Victim s.replacer = (none, s.replacer) := by
    rw [Replacer.Victim, hev]
  simp only [NewPageImpl, hfree, hvic]
  rw [← hfree]

theorem getD_replicate_empty (n f : Nat) :
    (List.replicate n emptyPage).getD f emptyPage = emptyPage := by
  rcases getD_mem_or (List.replicate n emptyPage) f emptyPage with hm | he
  · exact List.eq_of_mem_replicate hm
  · exact he

theorem mixInv_init (N : Nat) : MixInv N 0 [] (initBPM N) := by
  refine ⟨rfl, ?_, rfl, ?_, ?_, ?_⟩
  · show List.range N = List.range' 0 (N - 0)
    rw [List.range_eq_range', Nat.sub_zero]
  · intro f hf
    exact getD_replicate_empty N f
  · intro q g hq
    cases hq
  · show (0 : Nat) ≤ N
    omega

/-! ### Claim theorems -/

/-- C2: REFUTED.  `FetchPageImpl` erases the victim's page-table entry only
when the victim frame is dirty (lines 73-77), so fetching page 1 into the
frame of the clean resident page 0 (pool size 1, page 0 fetched and
unpinned clean) leaves the stale entry `0 ↦ frame 0` behind: the page table
then has two entries on a pool of size 1, and entry `(0, 0)` points at a
frame whose `page_id` is 1 — both halves of the claimed invariant fail. -/
theorem fetch_clean_victim_stale_entry :
    (run 1 [Op.fetch 0, Op.unpin 0 false, Op.fetch 1]).page_table = [(0, 0), (1, 0)] ∧
    getPage (run 1 [Op.fetch 0, Op.unpin 0 false, Op.fetch 1]) 0 =
      { data := [], page_id := 1, pin_count := 1, is_dirty := false } ∧
    (run 1 [Op.fetch 0, Op.unpin 0 false, Op.fetch 1]).pool_size = 1 := by
  decide

/-- C3: REFUTED.  Line 56 of the source calls `replacer_->Pin(page_id)` with
the page id instead of the frame id, so on a pool of size 1 after
`NewPage; Unpin(0); NewPage; Unpin(1); Fetch(1)` the page-table hit on page
1 (resident in frame 0) re-pins frame 0 but removes "frame 1" from the
policy instead of frame 0: frame 0 stays evictable with `pin_count = 1`,
the policy selects it as victim, and the next `NewPage` reuses the pinned
frame (returning page 2 in frame 0). -/
theorem victim_selects_pinned_frame :
    (getPage (run 1 [Op.newPage, Op.unpin 0 false, Op.newPage, Op.unpin 1 false,
      Op.fetch 1]) 0).pin_count = 1 ∧
    (run 1 [Op.newPage, Op.unpin 0 false, Op.newPage, Op.unpin 1 false,
      Op.fetch 1]).free_list = [] ∧
    (run 1 [Op.newPage, Op.unpin 0 false, Op.newPage, Op.unpin 1 false,
      Op.fetch 1]).replacer.evictable = [0] ∧
    (Replacer.Victim (run 1 [Op.newPage, Op.unpin 0 false, Op.newPage, Op.unpin 1 false,
      Op.fetch 1]).replacer).1 = some 0 ∧
    (NewPageImpl (run 1 [Op.newPage, Op.unpin 0 false, Op.newPage, Op.unpin 1 false,
      Op.fetch 1])).1 = some (2, 0) := by
  decide

/-- C8: REFUTED.  On a page-table hit `FetchPageImpl` calls the policy's
mark-non-evictable operation unconditionally and with the page id (line 56):
after `NewPage; Unpin(0); NewPage` (pool size 1) page 1 is resident in
frame 0 with pin count 1 and no mark-non-evictable call has been made;
`Fetch(1)` then raises the pin count 1 → 2 — not a zero-to-nonzero
transition — and issues the call with argument 1 (the page id), though the
frame index is 0. -/
theorem policy_pin_called_with_page_id :
    (run 1 [Op.newPage, Op.unpin 0 false, Op.newPage]).replacer.pinLog = [] ∧
    (getPage (run 1 [Op.newPage, Op.unpin 0 false, Op.newPage]) 0).pin_count = 1 ∧
    (run 1 [Op.newPage, Op.unpin 0 false, Op.newPage, Op.fetch 1]).replacer.pinLog = [1] ∧
    (getPage (run 1 [Op.newPage, Op.unpin 0 false, Op.newPage, Op.fetch 1]) 0).pin_count = 2 ∧
    ptFind (run 1 [Op.newPage, Op.unpin 0 false, Op.newPage, Op.fetch 1]).page_table 1 =
      some 0 := by
  decide

/-- C9: REFUTED.  `NewPageImpl` never touches `is_dirty_` (line 179 is
commented out), so the returned frame inherits a stale dirty flag.  On a
pool of size 2: fetch pages 0, 1, 2 (page 2 evicts clean page 0 from frame
0, leaving the stale table entry `0 ↦ frame 0`), unpin 2, delete the stale
page id 0 (which resets frame 0 to the free list while `2 ↦ frame 0`
survives), fetch 2 again (pinning the freed frame) and unpin it dirty: the
free-list frame 0 is now dirty, and the following `NewPage` succeeds but
returns frame 0 with `is_dirty = true`, contradicting the claimed
`is_dirty = false` (pin count and zeroed memory do hold). -/
theorem new_page_returns_dirty_frame :
    (NewPageImpl (run 2 [Op.fetch 0, Op.unpin 0 false, Op.fetch 1, Op.fetch 2,
      Op.unpin 2 false, Op.deletePage 0, Op.fetch 2, Op.unpin 2 true])).1 = some (0, 0) ∧
    getPage (NewPageImpl (run 2 [Op.fetch 0, Op.unpin 0 false, Op.fetch 1, Op.fetch 2,
      Op.unpin 2 false, Op.deletePage 0, Op.fetch 2, Op.unpin 2 true])).2 0 =
      { data := [], page_id := 0, pin_count := 1, is_dirty := true } := by
  decide

/-- C4: after `N` distinct pages have been brought into a fresh pool of
size `N` by any interleaving of fetches and fresh allocations (`some p` =
Fetch of a page distinct from all pages brought in before it, `none` =
NewPage) with nothing ever unpinned, any further fetch of a non-resident
page fails (returns the null handle) with the state unchanged, and any
`NewPage` fails with the state unchanged — in particular the failing
`NewPage` appends nothing to the disk log, so it performs no
`AllocatePage` call and leaks no on-disk page identifier. -/
theorem pool_exhaustion (N : Nat) (os : List (Option PageId))
    (hlen : os.length = N) (hfresh : FreshFill os [] 0) :
    (∀ q, ptFind (fillList os (initBPM N)).page_table q = none →
      FetchPageImpl q (fillList os (initBPM N)) = (none, fillList os (initBPM N))) ∧
    NewPageImpl (fillList os (initBPM N)) = (none, fillList os (initBPM N)) ∧
    ((NewPageImpl (fillList os (initBPM N))).2).disk.log =
      (fillList os (initBPM N)).disk.log := by
  obtain ⟨d', hinv⟩ := fillList_inv os 0 [] (initBPM N) N (mixInv_init N) hfresh
    (by omega)
  obtain ⟨g1, g2, g3, g4, g5, g6⟩ := hinv
  have hfree : (fillList os (initBPM N)).free_list = [] := by
    rw [g2, show N - (0 + os.length) = 0 from by omega]
    exact List.range'_zero
  refine ⟨?_, ?_, ?_⟩
  · intro q hq
    exact fetch_exhausted _ q hfree g3 hq
  · exact newPage_exhausted _ hfree g3
  · rw [newPage_exhausted _ hfree g3]

/-- Witness for C4: with pool size 2 filled by fetching page 5 and then
allocating one fresh page (neither unpinned), fetching page 7 fails and
`NewPage` fails without logging any disk call. -/
theorem pool_exhaustion_witness :
    FetchPageImpl 7 (fillList [some 5, none] (initBPM 2)) =
      (none, fillList [some 5, none] (initBPM 2)) ∧
    NewPageImpl (fillList [some 5, none] (initBPM 2)) =
      (none, fillList [some 5, none] (initBPM 2)) ∧
    ((NewPageImpl (fillList [some 5, none] (initBPM 2))).2).disk.log =
      (fillList [some 5, none] (initBPM 2)).disk.log :=
  ⟨(pool_exhaustion 2 [some 5, none] (by decide) ⟨by decide, trivial⟩).1 7 (by decide),
   (pool_exhaustion 2 [some 5, none] (by decide) ⟨by decide, trivial⟩).2.1,
   (pool_exhaustion 2 [some 5, none] (by decide) ⟨by decide, trivial⟩).2.2⟩

/-- C1: dirty pages are flushed before frame reuse.  If a frame `f` holding
dirty page `p` is taken as the eviction victim by a `Fetch` of a
non-resident page `q` (or by `NewPage`), then `p`'s bytes are persisted to
the store in the resulting state while the frame now holds the other page;
and a `Fetch` of a non-resident page whose bytes are persisted returns a
frame containing exactly those persisted bytes — so the round trip
Unpin(p, dirty) → evict → Fetch(p) yields the last-written content. -/
theorem dirty_writeback_roundtrip :
    (∀ s q p (f : Nat) tl, ptFind s.page_table q = none → s.free_list = [] →
      s.replacer.evictable = (f : Int) :: tl →
      (getPage s f).is_dirty = true → (getPage s f).page_id = p →
      ptFind s.page_table p = some f →
      storeLookup ((FetchPageImpl q s).2).disk.store p = some (getPage s f).data ∧
      (FetchPageImpl q s).1 = some f ∧
      (getPage (FetchPageImpl q s).2 f).page_id = q) ∧
    (∀ s p (f : Nat) tl, s.free_list = [] →
      s.replacer.evictable = (f : Int) :: tl →
      (getPage s f).is_dirty = true → (getPage s f).page_id = p →
      ptFind s.page_table p = some f →
      storeLookup ((NewPageImpl s).2).disk.store p = some (getPage s f).data ∧
      (NewPageImpl s).1 = some (s.disk.next_page, f)) ∧
    (∀ s p (f : Nat) rest d, s.free_list = f :: rest →
      ptFind s.page_table p = none →
      storeLookup s.disk.store p = some d → f < s.pages.length →
      (FetchPageImpl p s).1 = some f ∧
      (getPage (FetchPageImpl p s).2 f).data = d) :=
  ⟨fetch_evicts_dirty, newPage_evicts_dirty, fetch_miss_reads⟩

/-- Witness for C1: on a one-frame pool where page 0 was written as `[7]`
and unpinned dirty, fetching page 1 (and, separately, allocating a new
page) persists `[7]` for page 0 before reusing the frame; and after a flush
and delete have put `[7]` on disk for page 0, fetching page 0 again returns
exactly those bytes. -/
theorem dirty_writeback_roundtrip_witness :
    (storeLookup ((FetchPageImpl 1 (run 1 [Op.fetch 0, Op.write 0 [7],
        Op.unpin 0 true])).2).disk.store 0 =
      some (getPage (run 1 [Op.fetch 0, Op.write 0 [7], Op.unpin 0 true]) 0).data ∧
     (FetchPageImpl 1 (run 1 [Op.fetch 0, Op.write 0 [7], Op.unpin 0 true])).1 = some 0 ∧
     (getPage (FetchPageImpl 1 (run 1 [Op.fetch 0, Op.write 0 [7],
        Op.unpin 0 true])).2 0).page_id = 1) ∧
    (storeLookup ((NewPageImpl (run 1 [Op.fetch 0, Op.write 0 [7],
        Op.unpin 0 true])).2).disk.store 0 =
      some (getPage (run 1 [Op.fetch 0, Op.write 0 [7], Op.unpin 0 true]) 0).data ∧
     (NewPageImpl (run 1 [Op.fetch 0, Op.write 0 [7], Op.unpin 0 true])).1 =
      some ((run 1 [Op.fetch 0, Op.write 0 [7], Op.unpin 0 true]).disk.next_page, 0)) ∧
    ((FetchPageImpl 0 (run 1 [Op.fetch 0, Op.write 0 [7], Op.unpin 0 true, Op.flush 0,
        Op.deletePage 0])).1 = some 0 ∧
     (getPage (FetchPageImpl 0 (run 1 [Op.fetch 0, Op.write 0 [7], Op.unpin 0 true,
        Op.flush 0, Op.deletePage 0])).2 0).data = [7]) :=
  ⟨dirty_writeback_roundtrip.1 (run 1 [Op.fetch 0, Op.write 0 [7], Op.unpin 0 true])
      1 0 0 [] (by decide) (by decide) (by decide) (by decide) (by decide) (by decide),
   dirty_writeback_roundtrip.2.1 (run 1 [Op.fetch 0, Op.write 0 [7], Op.unpin 0 true])
      0 0 [] (by decide) (by decide) (by decide) (by decide) (by decide),
   dirty_writeback_roundtrip.2.2 (run 1 [Op.fetch 0, Op.write 0 [7], Op.unpin 0 true,
      Op.flush 0, Op.deletePage 0]) 0 0 [] [7]
      (by decide) (by decide) (by decide) (by decide)⟩

/-- C7: flushing a resident dirty page writes its bytes to storage and
clears the dirty flag; flushing a resident clean page succeeds without any
state change (idempotent, no storage write); and a full `FlushAll` sweep is
idempotent — running it twice in a row gives the same state as once, so in
particular the second sweep appends nothing to the disk log (issues no
storage writes). -/
theorem flush_spec :
    (∀ s p f, ptFind s.page_table p = some f → (getPage s f).is_dirty = true →
      FlushPageImpl p s = (true, { s with
        disk := DiskManager.WritePage p (getPage s f).data s.disk,
        pages := s.pages.set f { getPage s f with is_dirty := false } })) ∧
    (∀ s p f, ptFind s.page_table p = some f → (getPage s f).is_dirty = false →
      FlushPageImpl p s = (true, s)) ∧
    (∀ s, FlushAllPagesImpl (FlushAllPagesImpl s) = FlushAllPagesImpl s) ∧
    (∀ s, (FlushAllPagesImpl (FlushAllPagesImpl s)).disk.log =
      (FlushAllPagesImpl s).disk.log) := by
  refine ⟨?_, ?_, ?_, ?_⟩
  · intro s p f hf hd
    rw [FlushPageImpl]
    exact flushWL_eq_dirty p s f hf hd
  · intro s p f hf hd
    rw [FlushPageImpl]
    exact flushWL_eq_clean p s f hf hd
  · exact flushAll_idem
  · intro s
    rw [flushAll_idem s]

/-- Witness for C7: on a one-frame pool holding page 0 unpinned dirty, a
first flush writes the page and a second flush of the now-clean page is a
no-op; the double `FlushAll` conjuncts are applied to the same state. -/
theorem flush_spec_witness :
    FlushPageImpl 0 (run 1 [Op.fetch 0, Op.write 0 [7], Op.unpin 0 true]) =
      (true, { run 1 [Op.fetch 0, Op.write 0 [7], Op.unpin 0 true] with
        disk := DiskManager.WritePage 0
          (getPage (run 1 [Op.fetch 0, Op.write 0 [7], Op.unpin 0 true]) 0).data
          (run 1 [Op.fetch 0, Op.write 0 [7], Op.unpin 0 true]).disk,
        pages := (run 1 [Op.fetch 0, Op.write 0 [7], Op.unpin 0 true]).pages.set 0
          { getPage (run 1 [Op.fetch 0, Op.write 0 [7], Op.unpin 0 true]) 0 with
            is_dirty := false } }) ∧
    FlushPageImpl 0 (run 1 [Op.fetch 0, Op.write 0 [7], Op.unpin 0 true, Op.flush 0]) =
      (true, run 1 [Op.fetch 0, Op.write 0 [7], Op.unpin 0 true, Op.flush 0]) ∧
    FlushAllPagesImpl (FlushAllPagesImpl (run 1 [Op.fetch 0, Op.write 0 [7],
      Op.unpin 0 true])) = FlushAllPagesImpl (run 1 [Op.fetch 0, Op.write 0 [7],
      Op.unpin 0 true]) ∧
    (FlushAllPagesImpl (FlushAllPagesImpl (run 1 [Op.fetch 0, Op.write 0 [7],
      Op.unpin 0 true]))).disk.log = (FlushAllPagesImpl (run 1 [Op.fetch 0,
      Op.write 0 [7], Op.unpin 0 true])).disk.log :=
  ⟨flush_spec.1 (run 1 [Op.fetch 0, Op.write 0 [7], Op.unpin 0 true]) 0 0
      (by decide) (by decide),
   flush_spec.2.1 (run 1 [Op.fetch 0, Op.write 0 [7], Op.unpin 0 true, Op.flush 0]) 0 0
      (by decide) (by decide),
   flush_spec.2.2.1 (run 1 [Op.fetch 0, Op.write 0 [7], Op.unpin 0 true]),
   flush_spec.2.2.2 (run 1 [Op.fetch 0, Op.write 0 [7], Op.unpin 0 true])⟩

/-- C5: `UnpinPageImpl` fails, leaving the state unchanged, when the page is
not in the page table or its pin count is already zero; on success it
decrements the pin count by one, ORs the dirty flag with the caller's value
(sticky dirty), and calls the policy's mark-evictable operation on the
frame index exactly when the new pin count is zero.  Consequently (last
conjunct) in every state reachable by any operation sequence from a fresh
pool no pin count is ever negative. -/
theorem unpin_spec :
    (∀ s p d, ptFind s.page_table p = none → UnpinPageImpl p d s = (false, s)) ∧
    (∀ s p d f, ptFind s.page_table p = some f → (getPage s f).pin_count = 0 →
      UnpinPageImpl p d s = (false, s)) ∧
    (∀ s p d f, ptFind s.page_table p = some f → (getPage s f).pin_count ≠ 0 →
      UnpinPageImpl p d s = (true,
        { s with
          pages := s.pages.set f
            { getPage s f with
              pin_count := (getPage s f).pin_count - 1,
              is_dirty := (getPage s f).is_dirty || d },
          replacer := if (getPage s f).pin_count - 1 = 0
            then Replacer.Unpin (f : Int) s.replacer
            else s.replacer })) ∧
    (∀ n ops, ∀ pg ∈ (run n ops).pages, 0 ≤ pg.pin_count) := by
  refine ⟨?_, ?_, ?_, ?_⟩
  · intro s p d h
    rw [UnpinPageImpl, h]
  · intro s p d f h hz
    rw [UnpinPageImpl, h]
    simp [hz]
  · intro s p d f h hz
    rw [UnpinPageImpl, h]
    simp only [hz, if_false]
    by_cases hz' : (getPage s f).pin_count - 1 = 0
    · simp only [hz', if_true]
    · simp only [hz', if_false]
  · intro n ops
    exact nonneg_run_aux ops (initBPM n) (nonneg_init n)

/-- Witness for C5: on a one-frame pool, unpinning an absent page and an
already-unpinned page both fail without state change; unpinning the pinned
page 0 with `is_dirty = true` succeeds with pin count 0, a sticky dirty
flag and a mark-evictable call on frame 0; and pin counts after a sample
run are non-negative. -/
theorem unpin_spec_witness :
    UnpinPageImpl 5 false (run 1 [Op.fetch 0]) = (false, run 1 [Op.fetch 0]) ∧
    UnpinPageImpl 0 false (run 1 [Op.fetch 0, Op.unpin 0 false]) =
      (false, run 1 [Op.fetch 0, Op.unpin 0 false]) ∧
    UnpinPageImpl 0 true (run 1 [Op.fetch 0]) = (true,
      { run 1 [Op.fetch 0] with
        pages := (run 1 [Op.fetch 0]).pages.set 0
          { getPage (run 1 [Op.fetch 0]) 0 with
            pin_count := (getPage (run 1 [Op.fetch 0]) 0).pin_count - 1,
            is_dirty := (getPage (run 1 [Op.fetch 0]) 0).is_dirty || true },
        replacer := if (getPage (run 1 [Op.fetch 0]) 0).pin_count - 1 = 0
          then Replacer.Unpin ((0 : Nat) : Int) (run 1 [Op.fetch 0]).replacer
          else (run 1 [Op.fetch 0]).replacer }) ∧
    (∀ pg ∈ (run 1 [Op.fetch 0, Op.unpin 0 false, Op.fetch 1]).pages, 0 ≤ pg.pin_count) :=
  ⟨unpin_spec.1 (run 1 [Op.fetch 0]) 5 false (by decide),
   unpin_spec.2.1 (run 1 [Op.fetch 0, Op.unpin 0 false]) 0 false 0 (by decide) (by decide),
   unpin_spec.2.2.1 (run 1 [Op.fetch 0]) 0 true 0 (by decide) (by decide),
   unpin_spec.2.2.2 1 [Op.fetch 0, Op.unpin 0 false, Op.fetch 1]⟩

/-- C10: on a page-table hit, `FetchPageImpl` returns the mapped frame and
changes nothing except that frame's pin count (incremented by one) and the
policy's evictability state: the disk (so no storage read or write), the
page table, the free list, every other frame, and the hit frame's data,
dirty flag and page id are all unchanged. -/
theorem fetch_hit_effects (s : BPM) (p : PageId) (f : Nat)
    (h : ptFind s.page_table p = some f) :
    FetchPageImpl p s =
      (some f, { s with
        pages := s.pages.set f { getPage s f with pin_count := (getPage s f).pin_count + 1 },
        replacer := Replacer.Pin p s.replacer }) ∧
    (FetchPageImpl p s).2.disk = s.disk ∧
    (FetchPageImpl p s).2.page_table = s.page_table ∧
    (FetchPageImpl p s).2.free_list = s.free_list ∧
    (∀ g, g ≠ f → getPage (FetchPageImpl p s).2 g = getPage s g) ∧
    (f < s.pages.length →
      getPage (FetchPageImpl p s).2 f =
        { getPage s f with pin_count := (getPage s f).pin_count + 1 }) := by
  have he : FetchPageImpl p s =
      (some f, { s with
        pages := s.pages.set f { getPage s f with pin_count := (getPage s f).pin_count + 1 },
        replacer := Replacer.Pin p s.replacer }) := by
    rw [FetchPageImpl, h]
  refine ⟨he, ?_, ?_, ?_, ?_, ?_⟩ <;> rw [he]
  · intro g hg
    exact getD_set_other _ _ _ _ _ (fun hh => hg hh.symm)
  · intro hlen
    exact getD_set_self _ _ _ _ hlen

/-- Witness for C10 at a concrete hit: fetching resident page 0 again on a
one-frame pool leaves the disk untouched and raises the pin count to 2. -/
theorem fetch_hit_effects_witness :
    (FetchPageImpl 0 (run 1 [Op.fetch 0])).2.disk = (run 1 [Op.fetch 0]).disk ∧
    (0 < (run 1 [Op.fetch 0]).pages.length →
      getPage (FetchPageImpl 0 (run 1 [Op.fetch 0])).2 0 =
        { getPage (run 1 [Op.fetch 0]) 0 with
            pin_count := (getPage (run 1 [Op.fetch 0]) 0).pin_count + 1 }) :=
  ⟨(fetch_hit_effects (run 1 [Op.fetch 0]) 0 0 (by decide)).2.1,
   (fetch_hit_effects (run 1 [Op.fetch 0]) 0 0 (by decide)).2.2.2.2.2⟩

/-- C6: `DeletePageImpl` succeeds as a no-op on a non-resident page id;
fails, leaving the state unchanged, on a resident page with positive pin
count; and on an unpinned resident page erases the page-table entry, resets
the frame to `emptyPage`, appends the frame to the free list, and calls the
storage collaborator's `DeallocatePage`. -/
theorem delete_page_spec :
    (∀ s p, ptFind s.page_table p = none → DeletePageImpl p s = (true, s)) ∧
    (∀ s p f, ptFind s.page_table p = some f → 0 < (getPage s f).pin_count →
      DeletePageImpl p s = (false, s)) ∧
    (∀ s p f, ptFind s.page_table p = some f → (getPage s f).pin_count = 0 →
      DeletePageImpl p s = (true, { s with
        page_table := ptErase s.page_table p,
        pages := s.pages.set f emptyPage,
        free_list := s.free_list ++ [f],
        disk := DiskManager.DeallocatePage p s.disk })) := by
  refine ⟨?_, ?_, ?_⟩
  · intro s p h
    rw [DeletePageImpl, h]
  · intro s p f h hpin
    rw [DeletePageImpl, h]
    simp [hpin]
  · intro s p f h hpin
    rw [DeletePageImpl, h]
    simp [hpin]

/-- Witness for C6 exercising all three branches on concrete states: delete
of an absent id, of a pinned resident page, and of an unpinned resident
page of a one-frame pool. -/
theorem delete_page_spec_witness :
    DeletePageImpl 5 (run 1 [Op.fetch 0]) = (true, run 1 [Op.fetch 0]) ∧
    DeletePageImpl 0 (run 1 [Op.fetch 0]) = (false, run 1 [Op.fetch 0]) ∧
    DeletePageImpl 0 (run 1 [Op.fetch 0, Op.unpin 0 false]) =
      (true, { run 1 [Op.fetch 0, Op.unpin 0 false] with
        page_table := ptErase (run 1 [Op.fetch 0, Op.unpin 0 false]).page_table 0,
        pages := (run 1 [Op.fetch 0, Op.unpin 0 false]).pages.set 0 emptyPage,
        free_list := (run 1 [Op.fetch 0, Op.unpin 0 false]).free_list ++ [0],
        disk := DiskManager.DeallocatePage 0 (run 1 [Op.fetch 0, Op.unpin 0 false]).disk }) :=
  ⟨delete_page_spec.1 (run 1 [Op.fetch 0]) 5 (by decide),
   delete_page_spec.2.1 (run 1 [Op.fetch 0]) 0 0 (by decide) (by decide),
   delete_page_spec.2.2 (run 1 [Op.fetch 0, Op.unpin 0 false]) 0 0 (by decide) (by decide)⟩

end BufferPool
